import Mathlib

/-!
Shallow embedding of the family-budget core subsystems:
the auto-categorization engine (utils/categorization.py) and
the CSV ingestion parsing pipeline (utils/csv_parser.py).

Modelling conventions:
* MongoDB collections become Lean lists of structures; a query with a sort
  becomes a stable sort (insertion sort with a total, transitive relation) of
  the filtered list, matching MongoDB's deterministic enumeration of an
  unchanged collection.  Document `_id` values are modelled as `Nat` and are
  unique in any real store, so `update_one` on an `_id` filter is modelled as
  a pointwise map guarded by the id.
* Timestamps (`datetime.utcnow()`) are an abstract `Nat` supplied by the
  caller (`now`).
* Python floats are modelled as exact rationals over the plain decimal
  fragment accepted by `float(...)` (optional sign, digits, one optional
  decimal point); exotic inputs (exponents, inf/nan, underscores) are outside
  the model and outside every claim below.
* The fuzzywuzzy similarity score `fuzz.ratio` is an abstract parameter
  `score : String → String → Nat` (0–100 scale): the claims about the fuzzy
  tier concern its threshold and tie-breaking, not the metric itself.
-/

/-- Python's `pat in s` substring test on character lists:
true iff `pat` occurs contiguously inside `s`. -/
def hasInfix : List Char → List Char → Bool
  | s, pat =>
    if pat.isPrefixOf s then true
    else
      match s with
      | [] => false
      | _ :: t => hasInfix t pat

/-- Substring test on strings (`pat in s` in Python). -/
def strContains (s pat : String) : Bool :=
  hasInfix s.data pat.data

/-- Match types carried by categorization rules and results.  The source
stores them as the strings 'exact', 'contains', 'fuzzy', 'none'. -/
inductive MatchKind where
  | exact
  | contains
  | fuzzy
  | nomatch
  deriving DecidableEq, Repr

/-- A document of the `categorization_rules` collection. -/
structure Rule where
  id : Nat
  pattern : String
  categoryId : Int
  matchType : MatchKind
  createdDate : Nat
  lastUsed : Nat
  useCount : Nat
  deriving DecidableEq, Repr

/-- Result dict returned by `AutoCategorizer.categorize`. -/
structure ClassResult where
  categoryId : Int
  confidence : ℚ
  matchType : MatchKind
  deriving DecidableEq, Repr

/-- The character class of the Python regexes `[slash dash]`. -/
def isSep (c : Char) : Bool :=
  c = '/' || c = '-'

/-- The whitespace class used by `str.split` and the `\s` regex class
(ASCII fragment). -/
def isSpaceChar (c : Char) : Bool :=
  c = ' ' || c = '\t' || c = '\n' || c = '\r' || c = '\x0b' || c = '\x0c'

/-- Python `s.strip()` (ASCII whitespace), kernel-computable. -/
def pyStrip (s : String) : String :=
  ⟨(((s.data.dropWhile isSpaceChar).reverse).dropWhile isSpaceChar).reverse⟩

/-- Python `s.upper()` on the ASCII fragment, kernel-computable. -/
def pyUpper (s : String) : String :=
  ⟨s.data.map Char.toUpper⟩

/-- Python `s.lower()` on the ASCII fragment, kernel-computable. -/
def pyLower (s : String) : String :=
  ⟨s.data.map Char.toLower⟩

/-- Python `s.startswith(pre)`, kernel-computable. -/
def pyStartsWith (s pre : String) : Bool :=
  pre.data.isPrefixOf s.data

/-- Python `s.endswith(suf)`, kernel-computable. -/
def pyEndsWith (s suf : String) : Bool :=
  suf.data.reverse.isPrefixOf s.data.reverse

/-- One pass of `re.sub(r'#\d+', '', s)`: drop every `#` that is followed by
at least one digit, together with the maximal digit run after it.  Fuel is
the length of the list; every step consumes at least one character. -/
def removeHashNumsAux : Nat → List Char → List Char
  | 0, l => l
  | _ + 1, [] => []
  | fuel + 1, c :: rest =>
    if c = '#' && (match rest with | d :: _ => d.isDigit | [] => false) then
      removeHashNumsAux fuel (rest.dropWhile Char.isDigit)
    else
      c :: removeHashNumsAux fuel rest

def removeHashNums (l : List Char) : List Char :=
  removeHashNumsAux l.length l

/-- Consume exactly `n` digits, returning the remainder. -/
def digitsTake (n : Nat) (l : List Char) : Option (List Char) :=
  if (l.take n).length = n && (l.take n).all Char.isDigit then some (l.drop n)
  else none

/-- Consume one `[slash dash]` separator. -/
def sepTake : List Char → Option (List Char)
  | c :: rest => if isSep c then some rest else none
  | [] => none

/-- Greedy tail `\d{2,4}` of the date regex: try 4, then 3, then 2 digits. -/
def dateTail (l : List Char) : Option (List Char) :=
  (digitsTake 4 l).orElse fun _ => (digitsTake 3 l).orElse fun _ => digitsTake 2 l

/-- Attempt `\d{a}[slash dash]\d{b}[slash dash]\d{2,4}` at the head of the list. -/
def dateFrom (a b : Nat) (l : List Char) : Option (List Char) :=
  (digitsTake a l).bind fun r1 =>
    (sepTake r1).bind fun r2 =>
      (digitsTake b r2).bind fun r3 =>
        (sepTake r3).bind fun r4 => dateTail r4

/-- Attempt the date regex `\d{1,2}[slash dash]\d{1,2}[slash dash]\d{2,4}` at the head,
with the greedy backtracking order of the Python engine. -/
def tryDateAt (l : List Char) : Option (List Char) :=
  (dateFrom 2 2 l).orElse fun _ =>
    (dateFrom 2 1 l).orElse fun _ =>
      (dateFrom 1 2 l).orElse fun _ => dateFrom 1 1 l

/-- One pass of `re.sub(r'\d{1,2}[slash dash]\d{1,2}[slash dash]\d{2,4}', '', s)`:
leftmost, non-overlapping removal. -/
def removeDatesAux : Nat → List Char → List Char
  | 0, l => l
  | _ + 1, [] => []
  | fuel + 1, c :: rest =>
    match tryDateAt (c :: rest) with
    | some rem => removeDatesAux fuel rem
    | none => c :: removeDatesAux fuel rest

def removeDates (l : List Char) : List Char :=
  removeDatesAux l.length l

/-- `re.sub(r'\s+\d+\s*$', '', s)`: strip a trailing run of whitespace, then
digits, then optional whitespace, anchored at the end. -/
def removeTrailingNum (l : List Char) : List Char :=
  let r := l.reverse
  let r1 := r.dropWhile isSpaceChar
  let digits := r1.takeWhile Char.isDigit
  let r2 := r1.dropWhile Char.isDigit
  let spaces := r2.takeWhile isSpaceChar
  let r3 := r2.dropWhile isSpaceChar
  if !digits.isEmpty && !spaces.isEmpty then r3.reverse else l

/-- Python `s.split()`: split on whitespace runs, dropping empty pieces;
`acc` accumulates the current word reversed. -/
def splitWordsAux : List Char → List Char → List String
  | [], acc => if acc.isEmpty then [] else [⟨acc.reverse⟩]
  | c :: rest, acc =>
    if isSpaceChar c then
      if acc.isEmpty then splitWordsAux rest []
      else ⟨acc.reverse⟩ :: splitWordsAux rest []
    else splitWordsAux rest (c :: acc)

def splitWords (s : String) : List String :=
  splitWordsAux s.data []

/-- Python `' '.join(ws)`. -/
def joinSpace (ws : List String) : String :=
  String.intercalate " " ws

/-- `AutoCategorizer._extract_merchant_pattern`: strip store numbers, date
tokens and a trailing number, collapse whitespace, keep at most the first
four words.  The caller passes the trimmed, upper-cased description. -/
def extract_merchant_pattern (description : String) : String :=
  let p1 : String := ⟨removeHashNums description.data⟩
  let p2 : String := ⟨removeDates p1.data⟩
  let p3 : String := ⟨removeTrailingNum p2.data⟩
  let p4 := joinSpace (splitWords p3)
  let ws := splitWords p4
  let p5 := if ws.length > 4 then joinSpace (ws.take 4) else p4
  pyStrip p5

/-- The descending-`use_count` order used by the `contains` tier
(`.sort('use_count', -1)`). -/
def geUse (a b : Rule) : Prop :=
  b.useCount ≤ a.useCount

instance : DecidableRel geUse := fun a b => Nat.decLe b.useCount a.useCount

instance : IsTotal Rule geUse := ⟨fun a b => Nat.le_total b.useCount a.useCount⟩

instance : IsTrans Rule geUse := ⟨fun _ _ _ h1 h2 => Nat.le_trans h2 h1⟩

/-- The `$set`/`$inc` document of `AutoCategorizer._update_rule_usage`,
applied to a rule when its `_id` matches. -/
def bumpIf (now ruleId : Nat) (r : Rule) : Rule :=
  if r.id = ruleId then { r with lastUsed := now, useCount := r.useCount + 1 }
  else r

/-- `AutoCategorizer._update_rule_usage`: set `last_used` to now and
increment `use_count` on the rule with the given `_id`. -/
def update_rule_usage (now ruleId : Nat) (s : List Rule) : List Rule :=
  s.map (bumpIf now ruleId)

/-- The filter of the `find_one({'pattern': description, 'match_type':
'exact'})` query of `AutoCategorizer._exact_match`. -/
def exactPred (description : String) (r : Rule) : Bool :=
  r.pattern = description && r.matchType = MatchKind.exact

/-- The `match_type = 'contains'` filter. -/
def isContainsRule (r : Rule) : Bool :=
  r.matchType = MatchKind.contains

/-- The `match_type = 'fuzzy'` filter. -/
def isFuzzyRule (r : Rule) : Bool :=
  r.matchType = MatchKind.fuzzy

/-- The per-rule test of the `contains` tier: the rule's upper-cased
pattern is a substring of the description. -/
def containsPred (description : String) (r : Rule) : Bool :=
  strContains description (pyUpper r.pattern)

/-- The `find_one` of `AutoCategorizer._exact_match`. -/
def exactFind (description : String) (s : List Rule) : Option Rule :=
  s.find? (exactPred description)

/-- The scan of `AutoCategorizer._contains_match`: all `contains` rules in
descending `use_count` order, first rule whose upper-cased pattern is a
substring of the description. -/
def containsScan (description : String) (s : List Rule) : Option Rule :=
  (List.insertionSort geUse (s.filter isContainsRule)).find? (containsPred description)

/-- The best-score fold of `AutoCategorizer._fuzzy_match`: running best rule
and best score, updated only on a strictly greater score (first-encountered
rule wins ties); initial best score 0. -/
def fuzzyStep (score : String → String → Nat) (description : String)
    (acc : Option Rule × Nat) (r : Rule) : Option Rule × Nat :=
  let sc := score (pyUpper r.pattern) description
  if sc > acc.2 then (some r, sc) else acc

def fuzzyFold (score : String → String → Nat) (description : String)
    (rules : List Rule) : Option Rule × Nat :=
  rules.foldl (fuzzyStep score description) (none, 0)

/-- `AutoCategorizer._fuzzy_match`: accept the best fuzzy rule only when its
score is at least 80. -/
def fuzzyMatch (score : String → String → Nat) (description : String)
    (s : List Rule) : Option (Rule × Nat) :=
  let best := fuzzyFold score description (s.filter isFuzzyRule)
  if best.2 ≥ 80 then best.1.map (fun r => (r, best.2)) else none

/-- `AutoCategorizer.categorize`: the exact → contains → fuzzy cascade; the
returned pair is the result dict and the rule store after the usage update
performed by the winning tier (the store is unchanged when no tier hits). -/
def categorize (score : String → String → Nat) (now : Nat) (description : String)
    (s : List Rule) : ClassResult × List Rule :=
  let d := pyUpper (pyStrip description)
  match exactFind d s with
  | some r => (⟨r.categoryId, 1, MatchKind.exact⟩, update_rule_usage now r.id s)
  | none =>
    match containsScan d s with
    | some r => (⟨r.categoryId, 9 / 10, MatchKind.contains⟩, update_rule_usage now r.id s)
    | none =>
      match fuzzyMatch score d s with
      | some (r, sc) =>
        (⟨r.categoryId, (sc : ℚ) / 100, MatchKind.fuzzy⟩, update_rule_usage now r.id s)
      | none => (⟨0, 0, MatchKind.nomatch⟩, s)

/-- The lookup filter of `learn_from_categorization`: a `contains` rule
whose stored pattern equals the derived merchant pattern. -/
def learnPred (pat : String) (r : Rule) : Bool :=
  r.pattern = pat && r.matchType = MatchKind.contains

/-- `AutoCategorizer.learn_from_categorization`: upsert a `contains` rule for
the derived merchant pattern.  `newId` models the `_id` generated by
`insert_one`.  Returns the rule handed back to the caller (for an existing
rule this is the document fetched before the update, exactly as in the
source) together with the new store. -/
def learn_from_categorization (now newId : Nat) (description : String)
    (categoryId : Int) (s : List Rule) : Rule × List Rule :=
  let dClean := pyUpper (pyStrip description)
  let pat := extract_merchant_pattern dClean
  match s.find? (learnPred pat) with
  | some existing =>
    let s' :=
      if existing.categoryId ≠ categoryId then
        s.map fun r =>
          if r.id = existing.id then
            { r with categoryId := categoryId, lastUsed := now, useCount := r.useCount + 1 }
          else r
      else s
    (existing, s')
  | none =>
    let rule : Rule := ⟨newId, pat, categoryId, MatchKind.contains, now, now, 1⟩
    (rule, s ++ [rule])

/-- A document of the `transactions` collection (fields touched by the
core together with the frame fields date and amount). -/
structure Txn where
  id : Nat
  date : Nat
  description : String
  amount : ℚ
  categoryId : Int
  autoCategorized : Bool
  confidence : ℚ
  deriving DecidableEq, Repr

/-- The `$set` applied by `batch_categorize_similar`'s bulk update. -/
def batchApply (categoryId : Int) (t : Txn) : Txn :=
  { t with categoryId := categoryId, autoCategorized := true, confidence := 9 / 10 }

/-- The selection filter of `batch_categorize_similar`: uncategorized
(`category_id = 0`) and description matching the escaped pattern
case-insensitively. -/
def batchMatches (pat : String) (t : Txn) : Bool :=
  t.categoryId = 0 && strContains (pyUpper t.description) (pyUpper pat)

/-- `AutoCategorizer.batch_categorize_similar`: collect the ids of matching
uncategorized transactions, bulk-update them, and return MongoDB's
`modified_count` (documents whose content actually changed) with the new
store. -/
def batch_categorize_similar (description : String) (categoryId : Int)
    (ts : List Txn) : Nat × List Txn :=
  let dClean := pyUpper (pyStrip description)
  let pat := extract_merchant_pattern dClean
  let ids := (ts.filter (batchMatches pat)).map Txn.id
  if ids.isEmpty then (0, ts)
  else
    let ts' := ts.map fun t => if t.id ∈ ids then batchApply categoryId t else t
    let modified :=
      (ts.filter fun t => t.id ∈ ids && batchApply categoryId t ≠ t).length
    (modified, ts')

/-- Digit run to a natural number. -/
def digitsToNat (l : List Char) : Nat :=
  l.foldl (fun acc c => acc * 10 + (c.toNat - '0'.toNat)) 0

/-- Python `float(s)` on the plain decimal fragment: optional sign, then
digits with at most one decimal point and at least one digit; `none` models
the `ValueError` of an unparsable string. -/
def pyFloat (s : String) : Option ℚ :=
  let l := s.data
  let signed : ℚ × List Char :=
    match l with
    | c :: r => if c = '+' then (1, r) else if c = '-' then (-1, r) else (1, l)
    | [] => (1, l)
  let intPart := signed.2.takeWhile Char.isDigit
  let rest := signed.2.dropWhile Char.isDigit
  match rest with
  | [] =>
    if intPart.isEmpty then none
    else some (signed.1 * ((digitsToNat intPart : Int) : ℚ))
  | c :: frac =>
    if c = '.' then
      if frac.all Char.isDigit && !(intPart.isEmpty && frac.isEmpty) then
        some (signed.1 * (((digitsToNat intPart : Int) : ℚ) +
          ((digitsToNat frac : Int) : ℚ) / ((10 : ℚ) ^ frac.length)))
      else none
    else none

/-- The empty/null sentinel test of `CSVParser.parse_amount`
(`not amount_str or amount_str.lower() in ['', 'null', 'none', 'n/a']`),
applied to the already-stripped string. -/
def isNullCell (t : String) : Bool :=
  t = "" || (pyLower t = "null" || pyLower t = "none" || pyLower t = "n/a")

/-- The cleanup pipeline of `CSVParser.parse_amount` after the sentinel
check: strip accounting parentheses, remove currency symbols / commas /
spaces, strip one leading minus; returns the negativity flag and the string
handed to `float(...)`. -/
def cleanAmount (t : String) : Bool × String :=
  let step1 : Bool × String :=
    if pyStartsWith t "(" && pyEndsWith t ")" then (true, ⟨(t.data.drop 1).dropLast⟩)
    else (false, t)
  let s2 : String := ⟨step1.2.data.filter fun c => !(c = '$' || c = ',' || c = ' ')⟩
  if pyStartsWith s2 "-" then (true, ⟨s2.data.drop 1⟩) else (step1.1, s2)

/-- `CSVParser.parse_amount`: parse an amount cell to a signed number;
`none` models the raised `ValueError`. -/
def parse_amount (amount_string : String) : Option ℚ :=
  let t := pyStrip amount_string
  if isNullCell t then some 0
  else
    let c := cleanAmount t
    (pyFloat c.2).map fun a => if c.1 then -|a| else a

/-- The synonym lists of `CSVParser`. -/
def DATE_COLUMNS : List String :=
  ["date", "transaction date", "trans date", "posted date", "posting date"]

def DESCRIPTION_COLUMNS : List String :=
  ["description", "merchant", "memo", "transaction", "payee", "details",
   "description 1"]

def AMOUNT_COLUMNS : List String :=
  ["amount", "debit", "credit", "transaction amount", "value", "cad$", "usd$"]

/-- `CSVParser.find_column`: first synonym (in list order) present among the
lower-cased, trimmed headers; returns the original header at the first
matching index. -/
def find_column (headers : List String) (possibleNames : List String) : Option String :=
  let headersLower := headers.map fun h => pyStrip (pyLower h)
  possibleNames.findSome? fun name =>
    match headersLower.findIdx? (fun h => h = name) with
    | some i => headers.get? i
    | none => none

/-- The `ColumnMapping` dict produced by `CSVParser.detect_columns`:
exactly one of `amount` / `amountColumns` is populated. -/
structure ColumnMapping where
  date : String
  description : String
  amount : Option String
  amountColumns : Option (List String)
  deriving DecidableEq, Repr

/-- `CSVParser.detect_columns`; the `Except` error models the raised
`ValueError`, whose message names the headers seen. -/
def detect_columns (headers : List String) : Except String ColumnMapping :=
  match find_column headers DATE_COLUMNS with
  | none => .error ("Could not find date column. Available columns: " ++ toString headers)
  | some dateCol =>
    match find_column headers DESCRIPTION_COLUMNS with
    | none =>
      .error ("Could not find description column. Available columns: " ++ toString headers)
    | some descCol =>
      let headersLower := headers.map fun h => pyStrip (pyLower h)
      let amountCols := AMOUNT_COLUMNS.filterMap fun name =>
        match headersLower.findIdx? (fun h => h = name) with
        | some i => headers.get? i
        | none => none
      if amountCols.isEmpty then
        .error ("Could not find amount column. Available columns: " ++ toString headers)
      else
        .ok ⟨dateCol, descCol,
          if amountCols.length = 1 then amountCols.head? else none,
          if amountCols.length > 1 then some amountCols else none⟩

/-- A data row as handed to `_parse_row` by `csv.DictReader`: an association
from header name to cell text (first binding wins; a missing binding reads
as the empty cell).  Rows shorter or longer than the header are outside the
model. -/
def Row : Type := List (String × String)

def getCell (row : Row) (name : String) : String :=
  match List.find? (fun kv => kv.1 = name) row with
  | some kv => kv.2
  | none => ""

/-- The amount-cell selection of `_parse_row`: with multiple amount columns,
first non-empty (after strip) wins, else empty; with a single column, the
raw cell. -/
def amountCellOf (row : Row) (cm : ColumnMapping) : String :=
  match cm.amountColumns with
  | some cols =>
    match cols.findSome? (fun c =>
        let v := pyStrip (getCell row c)
        if v ≠ "" then some v else none) with
    | some v => v
    | none => ""
  | none => getCell row (cm.amount.getD "")

/-- A normalized transaction record built by `_parse_row`; the calendar
date type is abstract (`δ`). -/
structure Record (δ : Type) where
  date : δ
  description : String
  amount : ℚ
  deriving DecidableEq, Repr

/-- `CSVParser._parse_row`, parameterized by the date parser
(`detect_date_format` is modelled abstractly: `none` is its raised
`ValueError`).  `.ok none` is the silent skip of an all-empty row; `.error`
carries the message of the row-scoped exception (date first, then amount,
matching the evaluation order of the source's dict literal). -/
def parse_row {δ : Type} (parseDate : String → Option δ) (row : Row)
    (cm : ColumnMapping) : Except String (Option (Record δ)) :=
  let dateStr := getCell row cm.date
  let description := getCell row cm.description
  let amountStr := amountCellOf row cm
  if dateStr = "" && description = "" && amountStr = "" then .ok none
  else
    match parseDate dateStr with
    | none => .error ("Could not parse date: " ++ dateStr)
    | some d =>
      match parse_amount amountStr with
      | none => .error ("Could not parse amount: " ++ amountStr)
      | some a => .ok (some ⟨d, pyStrip description, a⟩)

/-- The result dict of `CSVParser.parse_csv` (the parts the claims are
about). -/
structure ParseOutput (δ : Type) where
  transactions : List (Record δ)
  rowErrors : List String
  mapping : ColumnMapping

/-- `CSVParser.parse_csv`: the input is the header row (`none` when the
file has no header line) and the data rows.  A column-detection failure is
fatal (`Except.error`, no partial result); each row-scoped failure becomes
one entry `"Row <n>: <message>"` where row 1 is the header and data rows
count from 2; rows keep being processed after an error. -/
def parse_csv {δ : Type} (parseDate : String → Option δ)
    (headers : Option (List String)) (rows : List Row) :
    Except String (ParseOutput δ) :=
  match headers with
  | none => .error "CSV file is empty or has no headers"
  | some hs =>
    match detect_columns hs with
    | .error e => .error e
    | .ok cm =>
      let step := rows.enum.foldl
        (fun (acc : List (Record δ) × List String) ir =>
          match parse_row parseDate ir.2 cm with
          | .ok (some t) => (acc.1 ++ [t], acc.2)
          | .ok none => acc
          | .error m =>
            (acc.1, acc.2 ++ ["Row " ++ toString (ir.1 + 2) ++ ": " ++ m]))
        ([], [])
      .ok ⟨step.1, step.2, cm⟩


/-- The record a data row contributes to `parse_csv`'s `transactions` list
(`none` when the row errors or is skipped); `ir` is the 0-based enumeration
index paired with the row. -/
def rowOutcomeRec {δ : Type} (pd : String → Option δ) (cm : ColumnMapping)
    (ir : Nat × Row) : Option (Record δ) :=
  match parse_row pd ir.2 cm with
  | .ok (some t) => some t
  | _ => none

/-- The entry a data row contributes to `parse_csv`'s error list (`none`
when the row parses or is skipped). -/
def rowOutcomeErr {δ : Type} (pd : String → Option δ) (cm : ColumnMapping)
    (ir : Nat × Row) : Option String :=
  match parse_row pd ir.2 cm with
  | .error m => some ("Row " ++ toString (ir.1 + 2) ++ ": " ++ m)
  | _ => none

/-! Helper development: the first hit of a predicate over the
descending-`use_count` stable sort equals a structural fold (`bestOf`),
which picks the maximal-`use_count` satisfier, earliest in store order
among ties.  This characterization drives the idempotence proof. -/

/-- Fold step: the head wins against the best of the tail unless the tail's
best has a strictly larger `use_count`. -/
def pick (p : Rule → Bool) (a : Rule) : Option Rule → Option Rule
  | none => if p a then some a else none
  | some b => if p a then (if a.useCount < b.useCount then some b else some a) else some b

/-- The satisfier of `p` with maximal `use_count`, earliest among ties. -/
def bestOf (p : Rule → Bool) (l : List Rule) : Option Rule :=
  l.foldr (pick p) none

theorem bestOf_nil (p : Rule → Bool) : bestOf p [] = none := rfl

theorem bestOf_cons (p : Rule → Bool) (a : Rule) (t : List Rule) :
    bestOf p (a :: t) = pick p a (bestOf p t) := rfl

theorem bestOf_sat (p : Rule → Bool) (l : List Rule) :
    ∀ b : Rule, bestOf p l = some b → p b := by
  induction l with
  | nil => intro b h; simp [bestOf] at h
  | cons a t ih =>
    intro b h
    rw [bestOf_cons] at h
    cases hb : bestOf p t with
    | none =>
      rw [hb] at h
      by_cases hpa : p a
      · have : a = b := by simpa [pick, hpa] using h
        exact this ▸ hpa
      · simp [pick, hpa] at h
    | some c =>
      rw [hb] at h
      by_cases hpa : p a
      · by_cases hlt : a.useCount < c.useCount
        · have : c = b := by simpa [pick, hpa, hlt] using h
          exact this ▸ ih c hb
        · have : a = b := by simpa [pick, hpa, hlt] using h
          exact this ▸ hpa
      · have : c = b := by simpa [pick, hpa] using h
        exact this ▸ ih c hb

theorem bestOf_mem (p : Rule → Bool) (l : List Rule) :
    ∀ b : Rule, bestOf p l = some b → b ∈ l := by
  induction l with
  | nil => intro b h; simp [bestOf] at h
  | cons a t ih =>
    intro b h
    rw [bestOf_cons] at h
    cases hb : bestOf p t with
    | none =>
      rw [hb] at h
      by_cases hpa : p a
      · have : a = b := by simpa [pick, hpa] using h
        exact this ▸ List.mem_cons_self a t
      · simp [pick, hpa] at h
    | some c =>
      rw [hb] at h
      by_cases hpa : p a
      · by_cases hlt : a.useCount < c.useCount
        · have : c = b := by simpa [pick, hpa, hlt] using h
          exact List.mem_cons_of_mem a (this ▸ ih c hb)
        · have : a = b := by simpa [pick, hpa, hlt] using h
          exact this ▸ List.mem_cons_self a t
      · have : c = b := by simpa [pick, hpa] using h
        exact List.mem_cons_of_mem a (this ▸ ih c hb)

theorem bestOf_eq_none_iff (p : Rule → Bool) (l : List Rule) :
    bestOf p l = none ↔ ∀ x ∈ l, ¬p x := by
  induction l with
  | nil => simp [bestOf]
  | cons a t ih =>
    rw [bestOf_cons]
    cases hb : bestOf p t with
    | none =>
      have ht : ∀ x ∈ t, ¬p x := ih.mp hb
      by_cases hpa : p a
      · apply iff_of_false
        · simp [pick, hpa]
        · intro h
          exact h a (List.mem_cons_self a t) hpa
      · apply iff_of_true
        · simp [pick, hpa]
        · intro x hx
          rcases List.mem_cons.mp hx with rfl | hxt
          · exact hpa
          · exact ht x hxt
    | some c =>
      have hpc : p c := bestOf_sat p t c hb
      have hc : c ∈ t := bestOf_mem p t c hb
      apply iff_of_false
      · by_cases hpa : p a
        · by_cases hlt : a.useCount < c.useCount <;> simp [pick, hpa, hlt]
        · simp [pick, hpa]
      · intro h
        exact absurd hpc (h c (List.mem_cons_of_mem a hc))

theorem find?_orderedInsert (p : Rule → Bool) (a : Rule) (s : List Rule)
    (hs : List.Sorted geUse s) :
    (List.orderedInsert geUse a s).find? p = pick p a (s.find? p) := by
  induction s with
  | nil =>
    by_cases hpa : p a <;>
      simp [List.orderedInsert, List.find?, pick, hpa]
  | cons b t ih =>
    rw [List.sorted_cons] at hs
    obtain ⟨hbt, hst⟩ := hs
    rw [List.orderedInsert]
    by_cases hab : geUse a b
    · rw [if_pos hab]
      unfold geUse at hab
      by_cases hpa : p a
      · rw [List.find?_cons_of_pos _ hpa]
        cases hf : List.find? p (b :: t) with
        | none => simp [pick, hpa]
        | some c =>
          have hc : c ∈ b :: t := List.mem_of_find?_eq_some hf
          have hca : c.useCount ≤ a.useCount := by
            rcases List.mem_cons.mp hc with rfl | hct
            · exact hab
            · exact le_trans (hbt c hct) hab
          simp [pick, hpa, Nat.not_lt.mpr hca]
      · rw [List.find?_cons_of_neg _ hpa]
        cases hf : List.find? p (b :: t) with
        | none => simp [pick, hpa]
        | some c => simp [pick, hpa]
    · rw [if_neg hab]
      unfold geUse at hab
      have hba : a.useCount < b.useCount := Nat.lt_of_not_le hab
      by_cases hpb : p b
      · rw [List.find?_cons_of_pos _ hpb, List.find?_cons_of_pos _ hpb]
        by_cases hpa : p a
        · simp [pick, hpa, hba]
        · simp [pick, hpa]
      · rw [List.find?_cons_of_neg _ hpb, List.find?_cons_of_neg _ hpb, ih hst]

theorem find?_insertionSort (p : Rule → Bool) (l : List Rule) :
    (List.insertionSort geUse l).find? p = bestOf p l := by
  induction l with
  | nil => rfl
  | cons a t ih =>
    have hrw : List.insertionSort geUse (a :: t) =
        List.orderedInsert geUse a (List.insertionSort geUse t) := rfl
    rw [hrw, find?_orderedInsert p a _ (List.sorted_insertionSort geUse t), ih,
      bestOf_cons]

theorem containsScan_eq_bestOf (description : String) (s : List Rule) :
    containsScan description s =
      bestOf (containsPred description) (s.filter isContainsRule) := by
  unfold containsScan
  exact find?_insertionSort _ _

theorem bumpIf_pattern (now i : Nat) (r : Rule) :
    (bumpIf now i r).pattern = r.pattern := by
  unfold bumpIf; split <;> rfl

theorem bumpIf_matchType (now i : Nat) (r : Rule) :
    (bumpIf now i r).matchType = r.matchType := by
  unfold bumpIf; split <;> rfl

theorem bumpIf_categoryId (now i : Nat) (r : Rule) :
    (bumpIf now i r).categoryId = r.categoryId := by
  unfold bumpIf; split <;> rfl

theorem bumpIf_id (now i : Nat) (r : Rule) :
    (bumpIf now i r).id = r.id := by
  unfold bumpIf; split <;> rfl

theorem bumpIf_of_ne (now i : Nat) (r : Rule) (h : r.id ≠ i) :
    bumpIf now i r = r := by
  unfold bumpIf; rw [if_neg h]

theorem bumpIf_self (now : Nat) (r : Rule) :
    bumpIf now r.id r = { r with lastUsed := now, useCount := r.useCount + 1 } := by
  unfold bumpIf; rw [if_pos rfl]

theorem bumpIf_useCount_self (now : Nat) (r : Rule) :
    (bumpIf now r.id r).useCount = r.useCount + 1 := by
  rw [bumpIf_self]

theorem bestOf_map_of_none (p : Rule → Bool) (f : Rule → Rule)
    (hp : ∀ r, p (f r) = p r) (l : List Rule) (h : bestOf p l = none) :
    bestOf p (l.map f) = none := by
  rw [bestOf_eq_none_iff] at h ⊢
  intro x hx
  rcases List.mem_map.mp hx with ⟨y, hy, rfl⟩
  rw [hp y]
  exact h y hy

/-- Incrementing the `use_count` of the winning rule (and of no other rule,
which unique `_id`s guarantee) keeps it the winner of the scan. -/
theorem bestOf_map_bumpIf (p : Rule → Bool) (now : Nat) (R : Rule)
    (hp : ∀ r, p (bumpIf now R.id r) = p r) :
    ∀ l : List Rule, (l.map Rule.id).Nodup → bestOf p l = some R →
      bestOf p (l.map (bumpIf now R.id)) = some (bumpIf now R.id R) := by
  intro l
  induction l with
  | nil => intro _ h; simp [bestOf] at h
  | cons a t ih =>
    intro hnd h
    rw [List.map_cons] at hnd
    obtain ⟨hanin, hnt⟩ := List.nodup_cons.mp hnd
    rw [bestOf_cons] at h
    rw [List.map_cons, bestOf_cons]
    cases hb : bestOf p t with
    | none =>
      rw [hb] at h
      by_cases hpa : p a
      · have haR : a = R := by simpa [pick, hpa] using h
        subst haR
        rw [bestOf_map_of_none p _ hp t hb]
        have hpb : p (bumpIf now a.id a) = true := by rw [hp]; exact hpa
        simp [pick, hpb]
      · simp [pick, hpa] at h
    | some b =>
      rw [hb] at h
      have hbt : b ∈ t := bestOf_mem p t b hb
      by_cases hpa : p a
      · by_cases hlt : a.useCount < b.useCount
        · have hbR : b = R := by simpa [pick, hpa, hlt] using h
          subst hbR
          have haR : a.id ≠ b.id :=
            fun he => hanin (he ▸ List.mem_map_of_mem Rule.id hbt)
          rw [bumpIf_of_ne now b.id a haR]
          rw [ih hnt hb]
          have hlt2 : a.useCount < (bumpIf now b.id b).useCount := by
            rw [show (bumpIf now b.id b).useCount = b.useCount + 1 from
              bumpIf_useCount_self now b]
            exact Nat.lt_succ_of_lt hlt
          simp [pick, hpa, hlt2]
        · have haR : a = R := by simpa [pick, hpa, hlt] using h
          subst haR
          have htid : ∀ x ∈ t, bumpIf now a.id x = x := by
            intro x hx
            exact bumpIf_of_ne now a.id x
              (fun he => hanin (he ▸ List.mem_map_of_mem Rule.id hx))
          have hmapt : t.map (bumpIf now a.id) = t := by
            rw [List.map_congr_left htid]
            simp
          rw [hmapt, hb]
          have hpb : p (bumpIf now a.id a) = true := by rw [hp]; exact hpa
          have hnlt : ¬(bumpIf now a.id a).useCount < b.useCount := by
            rw [bumpIf_useCount_self now a]
            exact Nat.not_lt.mpr (Nat.le_succ_of_le (Nat.not_lt.mp hlt))
          simp [pick, hpb, hnlt]
      · have hbR : b = R := by simpa [pick, hpa] using h
        subst hbR
        have haR : a.id ≠ b.id :=
          fun he => hanin (he ▸ List.mem_map_of_mem Rule.id hbt)
        rw [bumpIf_of_ne now b.id a haR]
        rw [ih hnt hb]
        simp [pick, hpa]

theorem containsPred_bumpIf (d : String) (now i : Nat) (r : Rule) :
    containsPred d (bumpIf now i r) = containsPred d r := by
  unfold containsPred
  rw [bumpIf_pattern]

theorem exactFind_update (d : String) (now i : Nat) (s : List Rule) :
    exactFind d (update_rule_usage now i s) = (exactFind d s).map (bumpIf now i) := by
  unfold exactFind update_rule_usage
  rw [List.find?_map]
  have hpq : exactPred d ∘ bumpIf now i = exactPred d := by
    funext r
    simp [Function.comp, exactPred, bumpIf_pattern, bumpIf_matchType]
  rw [hpq]

theorem filter_update_contains (now i : Nat) (s : List Rule) :
    (update_rule_usage now i s).filter isContainsRule =
      (s.filter isContainsRule).map (bumpIf now i) := by
  unfold update_rule_usage
  rw [List.filter_map]
  have hpq : isContainsRule ∘ bumpIf now i = isContainsRule := by
    funext r
    simp [Function.comp, isContainsRule, bumpIf_matchType]
  rw [hpq]

theorem filter_update_fuzzy (now i : Nat) (s : List Rule) :
    (update_rule_usage now i s).filter isFuzzyRule =
      (s.filter isFuzzyRule).map (bumpIf now i) := by
  unfold update_rule_usage
  rw [List.filter_map]
  have hpq : isFuzzyRule ∘ bumpIf now i = isFuzzyRule := by
    funext r
    simp [Function.comp, isFuzzyRule, bumpIf_matchType]
  rw [hpq]

theorem containsScan_none_update (d : String) (now i : Nat) (s : List Rule)
    (h : containsScan d s = none) :
    containsScan d (update_rule_usage now i s) = none := by
  rw [containsScan_eq_bestOf] at h ⊢
  rw [filter_update_contains]
  exact bestOf_map_of_none _ _ (containsPred_bumpIf d now i) _ h

theorem containsScan_some_update (d : String) (now : Nat) (s : List Rule) (R : Rule)
    (hnd : (s.map Rule.id).Nodup) (h : containsScan d s = some R) :
    containsScan d (update_rule_usage now R.id s) = some (bumpIf now R.id R) := by
  rw [containsScan_eq_bestOf] at h ⊢
  rw [filter_update_contains]
  refine bestOf_map_bumpIf _ now R (containsPred_bumpIf d now R.id) _ ?_ h
  exact ((List.filter_sublist s).map Rule.id).nodup hnd

theorem fuzzyFold_map_aux (score : String → String → Nat) (d : String)
    (f : Rule → Rule) (hf : ∀ r, (f r).pattern = r.pattern) :
    ∀ (l : List Rule) (acc : Option Rule × Nat),
      (l.map f).foldl (fuzzyStep score d) (acc.1.map f, acc.2) =
        (((l.foldl (fuzzyStep score d) acc).1).map f,
          (l.foldl (fuzzyStep score d) acc).2) := by
  intro l
  induction l with
  | nil => intro acc; rfl
  | cons a t ih =>
    intro acc
    rw [List.map_cons, List.foldl_cons, List.foldl_cons]
    have hstep : fuzzyStep score d (acc.1.map f, acc.2) (f a) =
        ((fuzzyStep score d acc a).1.map f, (fuzzyStep score d acc a).2) := by
      unfold fuzzyStep
      rw [hf a]
      dsimp only
      split <;> rfl
    rw [hstep]
    exact ih (fuzzyStep score d acc a)

theorem fuzzyFold_map (score : String → String → Nat) (d : String)
    (f : Rule → Rule) (hf : ∀ r, (f r).pattern = r.pattern) (l : List Rule) :
    fuzzyFold score d (l.map f) =
      (((fuzzyFold score d l).1).map f, (fuzzyFold score d l).2) := by
  unfold fuzzyFold
  exact fuzzyFold_map_aux score d f hf l (none, 0)

theorem fuzzyMatch_update (score : String → String → Nat) (d : String)
    (now i : Nat) (s : List Rule) :
    fuzzyMatch score d (update_rule_usage now i s) =
      (fuzzyMatch score d s).map (fun pr => (bumpIf now i pr.1, pr.2)) := by
  unfold fuzzyMatch
  rw [filter_update_fuzzy,
    fuzzyFold_map score d (bumpIf now i) (bumpIf_pattern now i)]
  cases hb : (fuzzyFold score d (s.filter isFuzzyRule)).1 <;>
    by_cases hge : (fuzzyFold score d (s.filter isFuzzyRule)).2 ≥ 80 <;>
      simp [hb, hge]

theorem categorize_of_exact (score : String → String → Nat) (now : Nat)
    (description : String) (s : List Rule) (r : Rule)
    (h : exactFind (pyUpper (pyStrip description)) s = some r) :
    categorize score now description s =
      (⟨r.categoryId, 1, MatchKind.exact⟩, update_rule_usage now r.id s) := by
  unfold categorize
  dsimp only
  rw [h]

theorem categorize_of_contains (score : String → String → Nat) (now : Nat)
    (description : String) (s : List Rule) (r : Rule)
    (h1 : exactFind (pyUpper (pyStrip description)) s = none)
    (h2 : containsScan (pyUpper (pyStrip description)) s = some r) :
    categorize score now description s =
      (⟨r.categoryId, 9 / 10, MatchKind.contains⟩, update_rule_usage now r.id s) := by
  unfold categorize
  dsimp only
  rw [h1, h2]

theorem categorize_of_fuzzy (score : String → String → Nat) (now : Nat)
    (description : String) (s : List Rule) (r : Rule) (sc : Nat)
    (h1 : exactFind (pyUpper (pyStrip description)) s = none)
    (h2 : containsScan (pyUpper (pyStrip description)) s = none)
    (h3 : fuzzyMatch score (pyUpper (pyStrip description)) s = some (r, sc)) :
    categorize score now description s =
      (⟨r.categoryId, (sc : ℚ) / 100, MatchKind.fuzzy⟩, update_rule_usage now r.id s) := by
  unfold categorize
  dsimp only
  rw [h1, h2, h3]

theorem categorize_of_nomatch (score : String → String → Nat) (now : Nat)
    (description : String) (s : List Rule)
    (h1 : exactFind (pyUpper (pyStrip description)) s = none)
    (h2 : containsScan (pyUpper (pyStrip description)) s = none)
    (h3 : fuzzyMatch score (pyUpper (pyStrip description)) s = none) :
    categorize score now description s = (⟨0, 0, MatchKind.nomatch⟩, s) := by
  unfold categorize
  dsimp only
  rw [h1, h2, h3]

/-- C6: `classify` is idempotent: for every rule store (with the unique
`_id`s MongoDB guarantees) and every description, classifying twice with no
intervening `learn` yields the same `category_id`, `confidence` and
`match_type`, even though the first call's `use_count` increment may reorder
the `contains` scan. -/
theorem c6_classify_idempotent (score : String → String → Nat) (now1 now2 : Nat)
    (d : String) (s : List Rule) (hnd : (s.map Rule.id).Nodup) :
    (categorize score now2 d (categorize score now1 d s).2).1 =
      (categorize score now1 d s).1 := by
  cases he : exactFind (pyUpper (pyStrip d)) s with
  | some r =>
    have h1 := categorize_of_exact score now1 d s r he
    have he2 : exactFind (pyUpper (pyStrip d)) (update_rule_usage now1 r.id s) =
        some (bumpIf now1 r.id r) := by
      rw [exactFind_update, he]
      rfl
    have h2 := categorize_of_exact score now2 d (update_rule_usage now1 r.id s)
      (bumpIf now1 r.id r) he2
    rw [h1]
    dsimp only
    rw [h2]
    simp [bumpIf_categoryId]
  | none =>
    cases hc : containsScan (pyUpper (pyStrip d)) s with
    | some r =>
      have h1 := categorize_of_contains score now1 d s r he hc
      have he2 : exactFind (pyUpper (pyStrip d)) (update_rule_usage now1 r.id s) = none := by
        rw [exactFind_update, he]
        rfl
      have hc2 := containsScan_some_update (pyUpper (pyStrip d)) now1 s r hnd hc
      have h2 := categorize_of_contains score now2 d (update_rule_usage now1 r.id s)
        (bumpIf now1 r.id r) he2 hc2
      rw [h1]
      dsimp only
      rw [h2]
      simp [bumpIf_categoryId]
    | none =>
      cases hf : fuzzyMatch score (pyUpper (pyStrip d)) s with
      | some pr =>
        obtain ⟨r, sc⟩ := pr
        have h1 := categorize_of_fuzzy score now1 d s r sc he hc hf
        have he2 : exactFind (pyUpper (pyStrip d)) (update_rule_usage now1 r.id s) = none := by
          rw [exactFind_update, he]
          rfl
        have hc2 := containsScan_none_update (pyUpper (pyStrip d)) now1 r.id s hc
        have hf2 : fuzzyMatch score (pyUpper (pyStrip d)) (update_rule_usage now1 r.id s) =
            some (bumpIf now1 r.id r, sc) := by
          rw [fuzzyMatch_update, hf]
          rfl
        have h2 := categorize_of_fuzzy score now2 d (update_rule_usage now1 r.id s)
          (bumpIf now1 r.id r) sc he2 hc2 hf2
        rw [h1]
        dsimp only
        rw [h2]
        simp [bumpIf_categoryId]
      | none =>
        have h1 := categorize_of_nomatch score now1 d s he hc hf
        rw [h1]
        dsimp only
        rw [categorize_of_nomatch score now2 d s he hc hf]

/-- Witness for C6 at a concrete store and description. -/
theorem c6_witness :
    (([⟨1, "A", 2, MatchKind.contains, 0, 0, 1⟩] : List Rule).map Rule.id).Nodup ∧
      (categorize (fun _ _ => 0) 5 "A"
          (categorize (fun _ _ => 0) 3 "A" [⟨1, "A", 2, MatchKind.contains, 0, 0, 1⟩]).2).1 =
        (categorize (fun _ _ => 0) 3 "A" [⟨1, "A", 2, MatchKind.contains, 0, 0, 1⟩]).1 :=
  ⟨by decide, c6_classify_idempotent (fun _ _ => 0) 3 5 "A"
    [⟨1, "A", 2, MatchKind.contains, 0, 0, 1⟩] (by decide)⟩

theorem fuzzyMatch_inv (score : String → String → Nat) (d : String)
    (s : List Rule) (r : Rule) (sc : Nat)
    (h : fuzzyMatch score d s = some (r, sc)) :
    80 ≤ sc ∧ fuzzyFold score d (s.filter isFuzzyRule) = (some r, sc) := by
  unfold fuzzyMatch at h
  dsimp only at h
  by_cases hge : (fuzzyFold score d (s.filter isFuzzyRule)).2 ≥ 80
  · rw [if_pos hge] at h
    cases hb : (fuzzyFold score d (s.filter isFuzzyRule)).1 with
    | none => rw [hb] at h; simp at h
    | some b =>
      rw [hb] at h
      have h' : some (b, (fuzzyFold score d (s.filter isFuzzyRule)).2) = some (r, sc) := h
      have hpair := Option.some.inj h'
      have hrb : b = r := congrArg Prod.fst hpair
      have hsc : (fuzzyFold score d (s.filter isFuzzyRule)).2 = sc := congrArg Prod.snd hpair
      constructor
      · rw [← hsc]; exact hge
      · rw [← hrb, ← hsc, ← hb]
  · rw [if_neg hge] at h
    exact absurd h (by simp)

/-- C3: the classification cascade.  The tiers fire in the order exact,
contains, fuzzy, stopping at the first hit with confidences 1, 9/10 and
score/100 respectively; the contains scan equals the
maximal-`use_count`-first characterization (`bestOf`, ties to the earliest
stored rule); a fuzzy hit implies its best score is at least 80; and when
no tier hits the result is exactly category 0, confidence 0, no match. -/
theorem c3_classify_cascade (score : String → String → Nat) (now : Nat)
    (d : String) (s : List Rule) :
    (∀ r, exactFind (pyUpper (pyStrip d)) s = some r →
      (categorize score now d s).1 = ⟨r.categoryId, 1, MatchKind.exact⟩) ∧
    (exactFind (pyUpper (pyStrip d)) s = none →
      ∀ r, containsScan (pyUpper (pyStrip d)) s = some r →
        (categorize score now d s).1 = ⟨r.categoryId, 9 / 10, MatchKind.contains⟩) ∧
    containsScan (pyUpper (pyStrip d)) s =
      bestOf (containsPred (pyUpper (pyStrip d))) (s.filter isContainsRule) ∧
    (exactFind (pyUpper (pyStrip d)) s = none → containsScan (pyUpper (pyStrip d)) s = none →
      ∀ r sc, fuzzyMatch score (pyUpper (pyStrip d)) s = some (r, sc) →
        80 ≤ sc ∧
          (categorize score now d s).1 = ⟨r.categoryId, (sc : ℚ) / 100, MatchKind.fuzzy⟩) ∧
    (exactFind (pyUpper (pyStrip d)) s = none → containsScan (pyUpper (pyStrip d)) s = none →
      fuzzyMatch score (pyUpper (pyStrip d)) s = none →
        (categorize score now d s).1 = ⟨0, 0, MatchKind.nomatch⟩) := by
  refine ⟨?_, ?_, containsScan_eq_bestOf _ s, ?_, ?_⟩
  · intro r h
    rw [categorize_of_exact score now d s r h]
  · intro h1 r h2
    rw [categorize_of_contains score now d s r h1 h2]
  · intro h1 h2 r sc h3
    exact ⟨(fuzzyMatch_inv score _ s r sc h3).1,
      by rw [categorize_of_fuzzy score now d s r sc h1 h2 h3]⟩
  · intro h1 h2 h3
    rw [categorize_of_nomatch score now d s h1 h2 h3]

/-- Witness for C3: on the empty store every tier misses and the result is
category 0, confidence 0, no match. -/
theorem c3_witness :
    (categorize (fun _ _ => 0) 0 "ANY DESCRIPTION" ([] : List Rule)).1 =
      ⟨0, 0, MatchKind.nomatch⟩ :=
  (c3_classify_cascade (fun _ _ => 0) 0 "ANY DESCRIPTION" []).2.2.2.2
    (by decide) (by decide) (by decide)

/-- C1 counterexample: when a `contains` rule for the derived pattern exists
with a different category, `learn` updates the store but returns the
document fetched before the update, so the returned rule still carries the
old `category_id` (1), not the supplied one (2) — the stored rule does
carry 2. -/
theorem c1_counterexample :
    (learn_from_categorization 5 2 "A" 2
        [⟨1, "A", 1, MatchKind.contains, 0, 0, 1⟩]).1.categoryId = 1 ∧
      ¬(learn_from_categorization 5 2 "A" 2
          [⟨1, "A", 1, MatchKind.contains, 0, 0, 1⟩]).1.categoryId = 2 ∧
      (learn_from_categorization 5 2 "A" 2
          [⟨1, "A", 1, MatchKind.contains, 0, 0, 1⟩]).2 =
        [⟨1, "A", 2, MatchKind.contains, 0, 5, 2⟩] := by
  decide

/-- C1 as amended: `learn` upserts exactly one `contains` rule for the
derived pattern.  If one exists with a different category, the stored rule
afterwards carries the new category, a refreshed `last_used` and an
incremented `use_count`, and the rule the caller receives is the pre-update
document (carrying the previous `category_id`); if one exists with the same
category, nothing changes; otherwise a fresh rule with `use_count = 1` and
both timestamps `now` is created and returned.  The at-most-one-`contains`-
rule-per-pattern invariant is preserved for every pattern. -/
theorem c1_learn_upsert (now newId : Nat) (d : String) (c : Int) (s : List Rule) :
    (∀ ex, s.find? (learnPred (extract_merchant_pattern (pyUpper (pyStrip d)))) = some ex →
      (learn_from_categorization now newId d c s).1 = ex ∧
      (ex.categoryId ≠ c →
        (learn_from_categorization now newId d c s).2.find?
            (learnPred (extract_merchant_pattern (pyUpper (pyStrip d)))) =
          some { ex with categoryId := c, lastUsed := now, useCount := ex.useCount + 1 }) ∧
      (ex.categoryId = c → (learn_from_categorization now newId d c s).2 = s)) ∧
    (s.find? (learnPred (extract_merchant_pattern (pyUpper (pyStrip d)))) = none →
      (learn_from_categorization now newId d c s).1 =
        ⟨newId, extract_merchant_pattern (pyUpper (pyStrip d)), c, MatchKind.contains, now, now, 1⟩ ∧
      (learn_from_categorization now newId d c s).2 =
        s ++ [(learn_from_categorization now newId d c s).1]) ∧
    (∀ q, s.countP (learnPred q) ≤ 1 →
      (learn_from_categorization now newId d c s).2.countP (learnPred q) ≤ 1) := by
  cases hf : s.find? (learnPred (extract_merchant_pattern (pyUpper (pyStrip d)))) with
  | some ex0 =>
    have hdef : learn_from_categorization now newId d c s =
        (ex0,
          if ex0.categoryId ≠ c then
            s.map fun r =>
              if r.id = ex0.id then
                { r with categoryId := c, lastUsed := now, useCount := r.useCount + 1 }
              else r
          else s) := by
      unfold learn_from_categorization
      dsimp only
      rw [hf]
    have hcong : ∀ q : String,
        (learnPred q ∘ fun r : Rule =>
          if r.id = ex0.id then
            { r with categoryId := c, lastUsed := now, useCount := r.useCount + 1 }
          else r) = learnPred q := by
      intro q
      funext r
      by_cases hid : r.id = ex0.id <;> simp [Function.comp, learnPred, hid]
    refine ⟨?_, ?_, ?_⟩
    · intro ex hex
      obtain rfl := Option.some.inj hex
      refine ⟨by rw [hdef], ?_, ?_⟩
      · intro hne
        rw [hdef]
        dsimp only
        rw [if_pos hne, List.find?_map, hcong, hf]
        simp
      · intro heq
        rw [hdef]
        dsimp only
        rw [if_neg (fun hne => hne heq)]
    · intro h
      exact Option.noConfusion h
    · intro q hq
      rw [hdef]
      dsimp only
      by_cases hne : ex0.categoryId ≠ c
      · rw [if_pos hne, List.countP_map, hcong]
        exact hq
      · rw [if_neg hne]
        exact hq
  | none =>
    have hdef : learn_from_categorization now newId d c s =
        (⟨newId, extract_merchant_pattern (pyUpper (pyStrip d)), c, MatchKind.contains, now, now, 1⟩,
          s ++ [⟨newId, extract_merchant_pattern (pyUpper (pyStrip d)), c, MatchKind.contains,
            now, now, 1⟩]) := by
      unfold learn_from_categorization
      dsimp only
      rw [hf]
    refine ⟨?_, fun _ => ⟨by rw [hdef], by rw [hdef]⟩, ?_⟩
    · intro ex hex
      exact Option.noConfusion hex
    · intro q hq
      rw [hdef]
      dsimp only
      rw [List.countP_append]
      by_cases hq2 : learnPred q
          ⟨newId, extract_merchant_pattern (pyUpper (pyStrip d)), c, MatchKind.contains, now, now, 1⟩
      · have hpatq : extract_merchant_pattern (pyUpper (pyStrip d)) = q := by
          simpa [learnPred] using hq2
        have h0 : s.countP (learnPred q) = 0 := by
          rw [← hpatq]
          exact List.countP_eq_zero.mpr (List.find?_eq_none.mp hf)
        rw [h0]
        simp [List.countP_cons, hq2]
      · simpa [List.countP_cons, hq2] using hq

/-- Witness for C1 at a concrete fresh-pattern learn. -/
theorem c1_witness :
    (learn_from_categorization 7 3 "B" 4 []).1 =
        ⟨3, extract_merchant_pattern (pyUpper (pyStrip "B")), 4, MatchKind.contains, 7, 7, 1⟩ ∧
      (learn_from_categorization 7 3 "B" 4 []).2 =
        [] ++ [(learn_from_categorization 7 3 "B" 4 []).1] :=
  (c1_learn_upsert 7 3 "B" 4 []).2.1 (by decide)

/-- C2 counterexample: the derived merchant pattern need not be a substring
of the original description (stripping an interior store number collapses
the surrounding whitespace), so `learn` followed by `classify` on the same
description can return no match at all: here learn("A #1 B", 7) stores the
pattern "A B", and classify("A #1 B") returns category 0, confidence 0,
match type none instead of a `contains` hit with category 7. -/
theorem c2_counterexample :
    extract_merchant_pattern (pyUpper (pyStrip "A #1 B")) = "A B" ∧
      (categorize (fun _ _ => 0) 1 "A #1 B"
          (learn_from_categorization 0 1 "A #1 B" 7 []).2).1 =
        ⟨0, 0, MatchKind.nomatch⟩ ∧
      ¬(categorize (fun _ _ => 0) 1 "A #1 B"
            (learn_from_categorization 0 1 "A #1 B" 7 []).2).1.matchType =
          MatchKind.contains := by
  refine ⟨by decide, by decide, by decide⟩

/-- C2 as amended: starting from an empty rule store, `learn(d, c)` followed
by `classify(d)` returns a `contains` match with confidence 9/10 and
category `c`, provided the derived merchant pattern is a substring of the
normalized description (which the counterexample shows is not automatic);
and the concrete end-to-end scenario holds: learning
"COSTCO WHOLESALE #123" as category 1 derives the pattern
"COSTCO WHOLESALE", and a later classify of
"COSTCO WHOLESALE #456 MONTREAL" returns category 1, `contains`, 9/10. -/
theorem c2_learn_then_classify (score : String → String → Nat)
    (now1 now2 newId : Nat) (d : String) (c : Int)
    (hsub : strContains (pyUpper (pyStrip d))
      (pyUpper (extract_merchant_pattern (pyUpper (pyStrip d)))) = true) :
    (categorize score now2 d (learn_from_categorization now1 newId d c []).2).1 =
        ⟨c, 9 / 10, MatchKind.contains⟩ ∧
      extract_merchant_pattern (pyUpper (pyStrip "COSTCO WHOLESALE #123")) =
        "COSTCO WHOLESALE" ∧
      (categorize score 1 "COSTCO WHOLESALE #456 MONTREAL"
          (learn_from_categorization 0 1 "COSTCO WHOLESALE #123" 1 []).2).1 =
        ⟨1, 9 / 10, MatchKind.contains⟩ := by
  refine ⟨?_, by decide, ?_⟩
  · have hlearn : learn_from_categorization now1 newId d c [] =
        (⟨newId, extract_merchant_pattern (pyUpper (pyStrip d)), c,
            MatchKind.contains, now1, now1, 1⟩,
          [⟨newId, extract_merchant_pattern (pyUpper (pyStrip d)), c,
            MatchKind.contains, now1, now1, 1⟩]) := rfl
    rw [hlearn]
    have he : exactFind (pyUpper (pyStrip d))
        [⟨newId, extract_merchant_pattern (pyUpper (pyStrip d)), c,
          MatchKind.contains, now1, now1, 1⟩] = none := by
      unfold exactFind
      rw [List.find?_cons_of_neg]
      · rfl
      · simp [exactPred]
    have hc : containsScan (pyUpper (pyStrip d))
        [⟨newId, extract_merchant_pattern (pyUpper (pyStrip d)), c,
          MatchKind.contains, now1, now1, 1⟩] =
        some ⟨newId, extract_merchant_pattern (pyUpper (pyStrip d)), c,
          MatchKind.contains, now1, now1, 1⟩ := by
      rw [containsScan_eq_bestOf]
      have hfil : List.filter isContainsRule
          [(⟨newId, extract_merchant_pattern (pyUpper (pyStrip d)), c,
            MatchKind.contains, now1, now1, 1⟩ : Rule)] =
          [⟨newId, extract_merchant_pattern (pyUpper (pyStrip d)), c,
            MatchKind.contains, now1, now1, 1⟩] := by
        simp [isContainsRule]
      rw [hfil, bestOf_cons, bestOf_nil]
      have hpred : containsPred (pyUpper (pyStrip d))
          ⟨newId, extract_merchant_pattern (pyUpper (pyStrip d)), c,
            MatchKind.contains, now1, now1, 1⟩ = true := hsub
      simp [pick, hpred]
    rw [categorize_of_contains score now2 d _ _ he hc]
  · have he2 : exactFind (pyUpper (pyStrip "COSTCO WHOLESALE #456 MONTREAL"))
        (learn_from_categorization 0 1 "COSTCO WHOLESALE #123" 1 []).2 = none := by
      decide
    have hc2 : containsScan (pyUpper (pyStrip "COSTCO WHOLESALE #456 MONTREAL"))
        (learn_from_categorization 0 1 "COSTCO WHOLESALE #123" 1 []).2 =
        some ⟨1, "COSTCO WHOLESALE", 1, MatchKind.contains, 0, 0, 1⟩ := by
      decide
    rw [categorize_of_contains score 1 "COSTCO WHOLESALE #456 MONTREAL" _ _ he2 hc2]

/-- Witness for C2 at the concrete Costco description. -/
theorem c2_witness :
    (categorize (fun _ _ => 0) 2 "COSTCO WHOLESALE #123"
        (learn_from_categorization 0 1 "COSTCO WHOLESALE #123" 1 []).2).1 =
      ⟨1, 9 / 10, MatchKind.contains⟩ :=
  (c2_learn_then_classify (fun _ _ => 0) 0 2 1 "COSTCO WHOLESALE #123" 1 (by decide)).1

theorem hasInfix_nil_pat (l : List Char) : hasInfix l [] = true := by
  cases l <;> simp [hasInfix, List.isPrefixOf]

theorem strContains_empty_pat (s : String) : strContains s "" = true :=
  hasInfix_nil_pat s.data

/-- C10: a description made only of strippable tokens derives the empty
merchant pattern; `learn` on such a description stores (or re-uses) a
`contains` rule with empty pattern; and since the empty string is a
substring of everything, any store holding such a rule makes the contains
tier fire on every description: no classify that reaches that tier ever
returns `none` again, and whenever the exact tier misses, the result is a
`contains` match with confidence 9/10 carrying some stored contains rule's
category. -/
theorem c10_empty_pattern :
    (extract_merchant_pattern "#123" = "" ∧
      extract_merchant_pattern "03/04/2021" = "") ∧
    (∀ (now newId : Nat) (c : Int) (s : List Rule),
      (learn_from_categorization now newId "#123" c s).1.pattern = "" ∧
      (learn_from_categorization now newId "#123" c s).1.matchType = MatchKind.contains ∧
      ∃ r ∈ (learn_from_categorization now newId "#123" c s).2,
        r.matchType = MatchKind.contains ∧ r.pattern = "") ∧
    (∀ (score : String → String → Nat) (now : Nat) (d : String) (s : List Rule),
      (∃ r ∈ s, r.matchType = MatchKind.contains ∧ r.pattern = "") →
        (categorize score now d s).1.matchType ≠ MatchKind.nomatch ∧
        (exactFind (pyUpper (pyStrip d)) s = none →
          (categorize score now d s).1.matchType = MatchKind.contains ∧
          (categorize score now d s).1.confidence = 9 / 10 ∧
          ∃ r2 ∈ s, r2.matchType = MatchKind.contains ∧
            (categorize score now d s).1.categoryId = r2.categoryId)) := by
  refine ⟨⟨by decide, by decide⟩, ?_, ?_⟩
  · intro now newId c s
    have hpat : extract_merchant_pattern (pyUpper (pyStrip "#123")) = "" := by decide
    cases hf : s.find? (learnPred (extract_merchant_pattern (pyUpper (pyStrip "#123")))) with
    | some ex =>
      have hlp : learnPred (extract_merchant_pattern (pyUpper (pyStrip "#123"))) ex = true :=
        List.find?_some hf
      rw [hpat] at hlp
      have hexp : ex.pattern = "" ∧ ex.matchType = MatchKind.contains := by
        simpa [learnPred] using hlp
      have hdef : learn_from_categorization now newId "#123" c s =
          (ex,
            if ex.categoryId ≠ c then
              s.map fun r =>
                if r.id = ex.id then
                  { r with categoryId := c, lastUsed := now, useCount := r.useCount + 1 }
                else r
            else s) := by
        unfold learn_from_categorization
        dsimp only
        rw [hf]
      rw [hdef]
      refine ⟨hexp.1, hexp.2, ?_⟩
      dsimp only
      by_cases hne : ex.categoryId ≠ c
      · rw [if_pos hne]
        refine ⟨(fun r =>
            if r.id = ex.id then
              { r with categoryId := c, lastUsed := now, useCount := r.useCount + 1 }
            else r) ex, List.mem_map_of_mem _ (List.mem_of_find?_eq_some hf), ?_⟩
        by_cases hid : ex.id = ex.id <;> simp [hid, hexp.1, hexp.2]
      · rw [if_neg hne]
        exact ⟨ex, List.mem_of_find?_eq_some hf, hexp.2, hexp.1⟩
    | none =>
      have hdef : learn_from_categorization now newId "#123" c s =
          (⟨newId, extract_merchant_pattern (pyUpper (pyStrip "#123")), c,
              MatchKind.contains, now, now, 1⟩,
            s ++ [⟨newId, extract_merchant_pattern (pyUpper (pyStrip "#123")), c,
              MatchKind.contains, now, now, 1⟩]) := by
        unfold learn_from_categorization
        dsimp only
        rw [hf]
      rw [hdef, hpat]
      exact ⟨rfl, rfl,
        ⟨newId, "", c, MatchKind.contains, now, now, 1⟩,
        List.mem_append_right s (List.mem_singleton.mpr rfl), rfl, rfl⟩
  · intro score now d s hex
    obtain ⟨r, hrs, hrc, hrp⟩ := hex
    have hrfil : r ∈ s.filter isContainsRule :=
      List.mem_filter.mpr ⟨hrs, by simp [isContainsRule, hrc]⟩
    have hpred : containsPred (pyUpper (pyStrip d)) r = true := by
      unfold containsPred
      rw [hrp]
      exact strContains_empty_pat _
    have hscan : ∃ r2, containsScan (pyUpper (pyStrip d)) s = some r2 := by
      rw [containsScan_eq_bestOf]
      cases hb : bestOf (containsPred (pyUpper (pyStrip d))) (s.filter isContainsRule) with
      | none =>
        exact absurd hpred ((bestOf_eq_none_iff _ _).mp hb r hrfil)
      | some r2 => exact ⟨r2, rfl⟩
    obtain ⟨r2, hc⟩ := hscan
    have hr2 : r2 ∈ s.filter isContainsRule :=
      bestOf_mem _ _ r2 (containsScan_eq_bestOf _ s ▸ hc)
    constructor
    · cases he : exactFind (pyUpper (pyStrip d)) s with
      | some e =>
        rw [categorize_of_exact score now d s e he]
        simp
      | none =>
        rw [categorize_of_contains score now d s r2 he hc]
        simp
    · intro he
      rw [categorize_of_contains score now d s r2 he hc]
      exact ⟨rfl, rfl, r2, (List.mem_filter.mp hr2).1,
        by simpa [isContainsRule] using (List.mem_filter.mp hr2).2, rfl⟩

/-- Witness for C10: a singleton store holding the empty-pattern rule
classifies an unrelated description as that rule's category. -/
theorem c10_witness :
    (categorize (fun _ _ => 0) 4 "TOTALLY UNRELATED TEXT"
        [⟨9, "", 3, MatchKind.contains, 0, 0, 1⟩]).1.matchType =
        MatchKind.contains ∧
      (categorize (fun _ _ => 0) 4 "TOTALLY UNRELATED TEXT"
          [⟨9, "", 3, MatchKind.contains, 0, 0, 1⟩]).1.confidence = 9 / 10 :=
  have h := (c10_empty_pattern.2.2 (fun _ _ => 0) 4 "TOTALLY UNRELATED TEXT"
    [⟨9, "", 3, MatchKind.contains, 0, 0, 1⟩]
    ⟨⟨9, "", 3, MatchKind.contains, 0, 0, 1⟩, by decide, rfl, rfl⟩).2 (by decide)
  ⟨h.1, h.2.1⟩

theorem batchApply_id (c : Int) (t : Txn) : (batchApply c t).id = t.id := rfl

theorem batchApply_idem (c : Int) (t : Txn) :
    batchApply c (batchApply c t) = batchApply c t := rfl

/-- Unique `_id`s make `_id` lookup unambiguous among store members. -/
theorem txn_eq_of_id (ts : List Txn) (hnd : (ts.map Txn.id).Nodup) :
    ∀ u ∈ ts, ∀ t ∈ ts, u.id = t.id → u = t := by
  induction ts with
  | nil => intro u hu; simp at hu
  | cons a l ih =>
    intro u hu t ht hid
    rw [List.map_cons, List.nodup_cons] at hnd
    obtain ⟨hanin, hnl⟩ := hnd
    rcases List.mem_cons.mp hu with rfl | hul
    · rcases List.mem_cons.mp ht with rfl | htl
      · rfl
      · exact absurd (hid ▸ List.mem_map_of_mem Txn.id htl) hanin
    · rcases List.mem_cons.mp ht with rfl | htl
      · exact absurd (hid ▸ List.mem_map_of_mem Txn.id hul) hanin
      · exact ih hnl u hul t htl hid

theorem mem_ids_iff (p : Txn → Bool) (ts : List Txn)
    (hnd : (ts.map Txn.id).Nodup) (t : Txn) (ht : t ∈ ts) :
    t.id ∈ (ts.filter p).map Txn.id ↔ p t = true := by
  constructor
  · intro h
    rcases List.mem_map.mp h with ⟨u, hu, huid⟩
    obtain ⟨hus, hup⟩ := List.mem_filter.mp hu
    have : u = t := txn_eq_of_id ts hnd u hus t ht huid
    exact this ▸ hup
  · intro h
    exact List.mem_map_of_mem Txn.id (List.mem_filter.mpr ⟨ht, h⟩)

/-- Full functional characterization of `batch_categorize_similar` over a
store with unique `_id`s: the new store applies the update exactly to the
matching (uncategorized, pattern-containing) transactions in place, and the
returned count is the number of matched documents whose content actually
changed. -/
theorem batch_spec (d : String) (c : Int) (ts : List Txn)
    (hnd : (ts.map Txn.id).Nodup) :
    (batch_categorize_similar d c ts).2 =
      ts.map (fun t =>
        if batchMatches (extract_merchant_pattern (pyUpper (pyStrip d))) t
        then batchApply c t else t) ∧
    (batch_categorize_similar d c ts).1 =
      (ts.filter fun t =>
        batchMatches (extract_merchant_pattern (pyUpper (pyStrip d))) t &&
          batchApply c t ≠ t).length := by
  by_cases hemp :
      ((ts.filter (batchMatches (extract_merchant_pattern (pyUpper (pyStrip d))))).map
        Txn.id).isEmpty = true
  · have hfil : ts.filter (batchMatches (extract_merchant_pattern (pyUpper (pyStrip d)))) = [] :=
      List.map_eq_nil.mp (List.isEmpty_iff.mp hemp)
    have hnom : ∀ t ∈ ts,
        ¬batchMatches (extract_merchant_pattern (pyUpper (pyStrip d))) t = true :=
      List.filter_eq_nil.mp hfil
    have hdef : batch_categorize_similar d c ts = (0, ts) := by
      unfold batch_categorize_similar
      dsimp only
      rw [if_pos hemp]
    rw [hdef]
    constructor
    · have : ∀ t ∈ ts,
          (if batchMatches (extract_merchant_pattern (pyUpper (pyStrip d))) t
            then batchApply c t else t) = id t := by
        intro t ht
        simp [hnom t ht]
      rw [List.map_congr_left this, List.map_id]
    · have : ts.filter (fun t =>
          batchMatches (extract_merchant_pattern (pyUpper (pyStrip d))) t &&
            batchApply c t ≠ t) = [] := by
        rw [List.filter_eq_nil]
        intro t ht
        simp [hnom t ht]
      rw [this]
      rfl
  · have hdef : batch_categorize_similar d c ts =
        ((ts.filter fun t =>
            t.id ∈ (ts.filter (batchMatches
              (extract_merchant_pattern (pyUpper (pyStrip d))))).map Txn.id &&
              batchApply c t ≠ t).length,
          ts.map fun t =>
            if t.id ∈ (ts.filter (batchMatches
                (extract_merchant_pattern (pyUpper (pyStrip d))))).map Txn.id
            then batchApply c t else t) := by
      unfold batch_categorize_similar
      dsimp only
      rw [if_neg hemp]
    rw [hdef]
    constructor
    · dsimp only
      apply List.map_congr_left
      intro t ht
      by_cases hm : batchMatches (extract_merchant_pattern (pyUpper (pyStrip d))) t = true
      · rw [if_pos ((mem_ids_iff _ ts hnd t ht).mpr hm), if_pos hm]
      · rw [if_neg (fun hin => hm ((mem_ids_iff _ ts hnd t ht).mp hin)),
          if_neg (by simpa using hm)]
    · dsimp only
      congr 1
      apply List.filter_congr
      intro t ht
      by_cases hm : batchMatches (extract_merchant_pattern (pyUpper (pyStrip d))) t = true
      · have : t.id ∈ (ts.filter (batchMatches
            (extract_merchant_pattern (pyUpper (pyStrip d))))).map Txn.id :=
          (mem_ids_iff _ ts hnd t ht).mpr hm
        simp [this, hm]
      · have : t.id ∉ (ts.filter (batchMatches
            (extract_merchant_pattern (pyUpper (pyStrip d))))).map Txn.id :=
          fun hin => hm ((mem_ids_iff _ ts hnd t ht).mp hin)
        simp [this, hm]

/-- C4: `propagateSimilar` only touches transactions that were uncategorized
(`category_id = 0`) and whose description contains the derived pattern
case-insensitively; it rewrites exactly those records in place, changing
only the fields `category_id` (to the supplied category), `auto_categorized`
(to true) and `confidence` (to 9/10); the returned count is the number of
matched documents whose content actually changed; and when nothing matches
the store is returned untouched with count 0. -/
theorem c4_batch_frame (d : String) (c : Int) (ts : List Txn)
    (hnd : (ts.map Txn.id).Nodup) :
    (batch_categorize_similar d c ts).2 =
      ts.map (fun t =>
        if batchMatches (extract_merchant_pattern (pyUpper (pyStrip d))) t
        then batchApply c t else t) ∧
    (batch_categorize_similar d c ts).1 =
      (ts.filter fun t =>
        batchMatches (extract_merchant_pattern (pyUpper (pyStrip d))) t &&
          batchApply c t ≠ t).length ∧
    (∀ t : Txn,
      batchMatches (extract_merchant_pattern (pyUpper (pyStrip d))) t = true →
        t.categoryId = 0 ∧
          strContains (pyUpper t.description)
            (pyUpper (extract_merchant_pattern (pyUpper (pyStrip d)))) = true) ∧
    (∀ t : Txn, (batchApply c t).id = t.id ∧ (batchApply c t).date = t.date ∧
      (batchApply c t).description = t.description ∧
      (batchApply c t).amount = t.amount ∧ (batchApply c t).categoryId = c ∧
      (batchApply c t).autoCategorized = true ∧
      (batchApply c t).confidence = 9 / 10) ∧
    (ts.filter (batchMatches (extract_merchant_pattern (pyUpper (pyStrip d)))) = [] →
      batch_categorize_similar d c ts = (0, ts)) := by
  refine ⟨(batch_spec d c ts hnd).1, (batch_spec d c ts hnd).2, ?_, ?_, ?_⟩
  · intro t hm
    unfold batchMatches at hm
    obtain ⟨h1, h2⟩ := (Bool.and_eq_true _ _).mp hm
    exact ⟨of_decide_eq_true h1, h2⟩
  · intro t
    exact ⟨rfl, rfl, rfl, rfl, rfl, rfl, rfl⟩
  · intro hfil
    unfold batch_categorize_similar
    dsimp only
    rw [hfil]
    rfl

/-- Witness for C4 at a concrete two-transaction store: the uncategorized
matching record is updated, the categorized one is untouched. -/
theorem c4_witness :
    (batch_categorize_similar "A" 9
        [⟨1, 0, "A ONE", 5, 0, false, 0⟩, ⟨2, 0, "A TWO", 6, 3, false, 0⟩]).2 =
      ([⟨1, 0, "A ONE", 5, 0, false, 0⟩, ⟨2, 0, "A TWO", 6, 3, false, 0⟩] : List Txn).map
        (fun t =>
          if batchMatches (extract_merchant_pattern (pyUpper (pyStrip "A"))) t
          then batchApply 9 t else t) :=
  (c4_batch_frame "A" 9
    [⟨1, 0, "A ONE", 5, 0, false, 0⟩, ⟨2, 0, "A TWO", 6, 3, false, 0⟩] (by decide)).1

/-- C5: running `propagateSimilar` twice in a row (no store change in
between) returns 0 from the second call: the first call has left no
uncategorized matching transaction whose content the bulk update would
still change. -/
theorem c5_batch_twice (d : String) (c : Int) (ts : List Txn)
    (hnd : (ts.map Txn.id).Nodup) :
    (batch_categorize_similar d c (batch_categorize_similar d c ts).2).1 = 0 := by
  have h2 := (batch_spec d c ts hnd).1
  have hnd' : ((batch_categorize_similar d c ts).2.map Txn.id).Nodup := by
    rw [h2, List.map_map]
    have hcomp : (Txn.id ∘ fun t =>
        if batchMatches (extract_merchant_pattern (pyUpper (pyStrip d))) t
        then batchApply c t else t) = Txn.id := by
      funext t
      by_cases hm : batchMatches (extract_merchant_pattern (pyUpper (pyStrip d))) t = true <;>
        simp [Function.comp, hm, batchApply]
    rw [hcomp]
    exact hnd
  rw [(batch_spec d c (batch_categorize_similar d c ts).2 hnd').2]
  have hnil : (batch_categorize_similar d c ts).2.filter
      (fun t =>
        batchMatches (extract_merchant_pattern (pyUpper (pyStrip d))) t &&
          batchApply c t ≠ t) = [] := by
    rw [List.filter_eq_nil_iff]
    intro u hu
    rw [h2] at hu
    rcases List.mem_map.mp hu with ⟨t, _, rfl⟩
    by_cases hm : batchMatches (extract_merchant_pattern (pyUpper (pyStrip d))) t = true
    · rw [if_pos hm]
      simp [batchApply_idem]
    · rw [if_neg (by simpa using hm)]
      simp [hm]
  rw [hnil]
  rfl

/-- Witness for C5 at a concrete store. -/
theorem c5_witness :
    (batch_categorize_similar "A" 9
        (batch_categorize_similar "A" 9 [⟨1, 0, "A ONE", 5, 0, false, 0⟩]).2).1 = 0 :=
  c5_batch_twice "A" 9 [⟨1, 0, "A ONE", 5, 0, false, 0⟩] (by decide)

theorem cleanAmount_fst_of_paren (t : String)
    (h : (pyStartsWith t "(" && pyEndsWith t ")") = true) :
    (cleanAmount t).1 = true := by
  unfold cleanAmount
  rw [if_pos h]
  dsimp only
  split <;> rfl

theorem cleanAmount_fst_of_minus (t : String) (h : pyStartsWith t "-" = true) :
    (cleanAmount t).1 = true := by
  obtain ⟨l⟩ := t
  cases l with
  | nil => exact absurd h (by decide)
  | cons c rest =>
    have hc : c = '-' := by
      have h2 : ('-' == c) = true := by
        simpa [pyStartsWith, List.isPrefixOf] using h
      exact (eq_of_beq h2).symm
    subst hc
    have h1 : (pyStartsWith ⟨'-' :: rest⟩ "(" && pyEndsWith ⟨'-' :: rest⟩ ")") = false := by
      simp [pyStartsWith, List.isPrefixOf]
    have hn : ¬((pyStartsWith ⟨'-' :: rest⟩ "(" && pyEndsWith ⟨'-' :: rest⟩ ")") = true) := by
      rw [h1]
      exact Bool.false_ne_true
    have hs : pyStartsWith
        (⟨List.filter (fun c => !(c = '$' || c = ',' || c = ' ')) ('-' :: rest)⟩ : String)
        "-" = true := by
      simp [pyStartsWith, List.filter, List.isPrefixOf]
    unfold cleanAmount
    rw [if_neg hn]
    dsimp only
    rw [if_pos hs]

/-- C7 counterexample: the parenthesized (accounting-negative) cell "(0)"
parses successfully, yet the result 0 is not negative — the negation is
applied as `-abs`, which is powerless on a zero magnitude. -/
theorem c7_counterexample :
    parse_amount "(0)" = some 0 ∧
      (pyStartsWith (pyStrip "(0)") "(" && pyEndsWith (pyStrip "(0)") ")") = true ∧
      ¬(0 : ℚ) < 0 :=
  ⟨by with_unfolding_all decide, by decide, lt_irrefl 0⟩

/-- C7 as amended: on every amount string the normalizer accepts, a
parenthesized form, a leading minus on the cleaned digits, or more
generally an armed negativity flag forces a non-positive result (strictly
negative exactly when the parsed magnitude is non-zero, as the "(0)"
counterexample shows); the concrete scenarios hold: "(1,234.56)" parses to
-1234.56, "$50.00" to 50, and "" to 0. -/
theorem parse_amount_paren_1234 :
    parse_amount "(1,234.56)" = some (-(123456 : ℚ) / 100) := by
  have hnull : ¬isNullCell (pyStrip "(1,234.56)") = true := by decide
  have hc : cleanAmount (pyStrip "(1,234.56)") = (true, "1234.56") := by decide
  unfold parse_amount
  rw [if_neg hnull]
  dsimp only
  rw [hc]
  dsimp only
  have hf : pyFloat "1234.56" =
      some ((1 : ℚ) * (((1234 : Int) : ℚ) + ((56 : Int) : ℚ) / (10 : ℚ) ^ 2)) := rfl
  rw [hf]
  dsimp only [Option.map]
  rw [if_pos rfl]
  rw [abs_of_nonneg (by norm_num)]
  norm_num

theorem parse_amount_dollar_50 : parse_amount "$50.00" = some 50 := by
  have hnull : ¬isNullCell (pyStrip "$50.00") = true := by decide
  have hc : cleanAmount (pyStrip "$50.00") = (false, "50.00") := by decide
  unfold parse_amount
  rw [if_neg hnull]
  dsimp only
  rw [hc]
  dsimp only
  have hf : pyFloat "50.00" =
      some ((1 : ℚ) * (((50 : Int) : ℚ) + ((0 : Int) : ℚ) / (10 : ℚ) ^ 2)) := rfl
  rw [hf]
  dsimp only [Option.map]
  rw [if_neg Bool.false_ne_true]
  norm_num

theorem parse_amount_empty : parse_amount "" = some 0 := by decide

/-- C7 as amended: on every amount string the normalizer accepts, a
parenthesized form, a leading minus on the cleaned digits, or more
generally an armed negativity flag forces a non-positive result (strictly
negative exactly when the parsed magnitude is non-zero, as the "(0)"
counterexample shows); the concrete scenarios hold: "(1,234.56)" parses to
-1234.56, "$50.00" to 50, and "" to 0. -/
theorem c7_amount_sign :
    (∀ (s : String) (q : ℚ), parse_amount s = some q →
      ((pyStartsWith (pyStrip s) "(" && pyEndsWith (pyStrip s) ")") = true → q ≤ 0) ∧
      (pyStartsWith (pyStrip s) "-" = true → q ≤ 0) ∧
      ((cleanAmount (pyStrip s)).1 = true → q ≤ 0)) ∧
    parse_amount "(1,234.56)" = some (-(123456 : ℚ) / 100) ∧
    parse_amount "$50.00" = some 50 ∧
    parse_amount "" = some 0 := by
  refine ⟨?_, parse_amount_paren_1234, parse_amount_dollar_50, parse_amount_empty⟩
  intro s q h
  unfold parse_amount at h
  by_cases hnull : isNullCell (pyStrip s) = true
  · rw [if_pos hnull] at h
    have hq : q = 0 := (Option.some.inj h).symm
    subst hq
    exact ⟨fun _ => le_refl 0, fun _ => le_refl 0, fun _ => le_refl 0⟩
  · rw [if_neg hnull] at h
    dsimp only at h
    cases hp : pyFloat (cleanAmount (pyStrip s)).2 with
    | none =>
      rw [hp] at h
      exact absurd h (by simp)
    | some a =>
      rw [hp] at h
      have hq : q = if (cleanAmount (pyStrip s)).1 = true then -|a| else a :=
        (Option.some.inj h).symm
      have hflag : (cleanAmount (pyStrip s)).1 = true → q ≤ 0 := by
        intro hf
        rw [hq, if_pos hf]
        exact neg_nonpos.mpr (abs_nonneg a)
      exact ⟨fun hpar => hflag (cleanAmount_fst_of_paren _ hpar),
        fun hmin => hflag (cleanAmount_fst_of_minus _ hmin), hflag⟩

/-- Witness for C7 at the concrete accounting-format cell. -/
theorem c7_witness :
    parse_amount "(1,234.56)" = some (-(123456 : ℚ) / 100) ∧
      (-(123456 : ℚ) / 100) ≤ 0 :=
  ⟨parse_amount_paren_1234,
    (c7_amount_sign.1 "(1,234.56)" (-(123456 : ℚ) / 100)
      parse_amount_paren_1234).1 (by decide)⟩

/-- C8 counterexample: a row whose amount cell is the non-empty,
non-sentinel text "0" is emitted as a record with amount 0 — the invariant
"amount is 0 only if the source cell was empty/null" fails on any cell
denoting the number zero. -/
theorem c8_counterexample :
    (parse_csv (fun s => if s = "D1" then some 1 else none)
          (some ["Date", "Description", "Amount"])
          [[("Date", "D1"), ("Description", "X"), ("Amount", "0")]]).toOption.map
        (fun o => (o.transactions, o.rowErrors)) =
      some ([⟨1, "X", 0⟩], []) ∧
      isNullCell (pyStrip "0") = false ∧ ¬(pyStrip "0" = "") :=
  ⟨by with_unfolding_all decide, by decide, by decide⟩

/-- C8 as amended: an empty or null-sentinel cell parses to amount 0; a
successfully parsed amount is 0 only when the cell was such a sentinel or
its cleaned digits denote the numeric value zero; and every record the row
parser emits carries exactly the parsed amount of its source amount cell. -/
theorem c8_amount_zero :
    (∀ s : String, isNullCell (pyStrip s) = true → parse_amount s = some 0) ∧
    (∀ (s : String) (q : ℚ), parse_amount s = some q → q = 0 →
      isNullCell (pyStrip s) = true ∨
        pyFloat (cleanAmount (pyStrip s)).2 = some 0) ∧
    (∀ (δ : Type) (pd : String → Option δ) (row : Row) (cm : ColumnMapping)
      (rec : Record δ), parse_row pd row cm = .ok (some rec) →
        parse_amount (amountCellOf row cm) = some rec.amount) := by
  refine ⟨?_, ?_, ?_⟩
  · intro s h
    unfold parse_amount
    rw [if_pos h]
  · intro s q h hq
    subst hq
    unfold parse_amount at h
    by_cases hnull : isNullCell (pyStrip s) = true
    · exact Or.inl hnull
    · rw [if_neg hnull] at h
      dsimp only at h
      cases hp : pyFloat (cleanAmount (pyStrip s)).2 with
      | none =>
        rw [hp] at h
        exact absurd h (by simp)
      | some a =>
        rw [hp] at h
        have ha : (if (cleanAmount (pyStrip s)).1 = true then -|a| else a) = 0 :=
          Option.some.inj h
        refine Or.inr ?_
        by_cases hf : (cleanAmount (pyStrip s)).1 = true
        · rw [if_pos hf] at ha
          have : |a| = 0 := by linarith [abs_nonneg a, neg_eq_zero.mp ha]
          exact congrArg some (abs_eq_zero.mp this)
        · rw [if_neg hf] at ha
          exact congrArg some ha
  · intro δ pd row cm rec h
    unfold parse_row at h
    by_cases hempty : (getCell row cm.date = "" && getCell row cm.description = "" &&
        amountCellOf row cm = "") = true
    · rw [if_pos hempty] at h
      exact Option.noConfusion (Except.ok.inj h)
    · rw [if_neg hempty] at h
      cases hd : pd (getCell row cm.date) with
      | none =>
        rw [hd] at h
        exact Except.noConfusion h
      | some dd =>
        rw [hd] at h
        cases ha2 : parse_amount (amountCellOf row cm) with
        | none =>
          rw [ha2] at h
          exact Except.noConfusion h
        | some a =>
          rw [ha2] at h
          have : some (⟨dd, pyStrip (getCell row cm.description), a⟩ : Record δ) =
              some rec := Except.ok.inj h
          rw [← Option.some.inj this]

/-- Witness for C8: the cell "0" parses to zero through the numeric branch,
not the sentinel branch. -/
theorem c8_witness :
    isNullCell (pyStrip "0") = true ∨
      pyFloat (cleanAmount (pyStrip "0")).2 = some 0 :=
  c8_amount_zero.2.1 "0" 0 (by with_unfolding_all decide) rfl

theorem csv_fold_spec {δ : Type} (pd : String → Option δ) (cm : ColumnMapping) :
    ∀ (l : List (Nat × Row)) (acc : List (Record δ) × List String),
      l.foldl
        (fun (acc : List (Record δ) × List String) ir =>
          match parse_row pd ir.2 cm with
          | .ok (some t) => (acc.1 ++ [t], acc.2)
          | .ok none => acc
          | .error m =>
            (acc.1, acc.2 ++ ["Row " ++ toString (ir.1 + 2) ++ ": " ++ m]))
        acc =
      (acc.1 ++ l.filterMap (rowOutcomeRec pd cm),
        acc.2 ++ l.filterMap (rowOutcomeErr pd cm)) := by
  intro l
  induction l with
  | nil => intro acc; simp
  | cons ir l ih =>
    intro acc
    rw [List.foldl_cons, ih, List.filterMap_cons, List.filterMap_cons]
    cases hr : parse_row pd ir.2 cm with
    | ok o =>
      cases o with
      | some t => simp [rowOutcomeRec, rowOutcomeErr, hr]
      | none => simp [rowOutcomeRec, rowOutcomeErr, hr]
    | error m => simp [rowOutcomeRec, rowOutcomeErr, hr]

/-- C9 counterexample: the row-scoped error string is emitted with a
capital "Row", not the lowercase "row <n>: <message>" template of the
claim; the later good row is still parsed. -/
theorem c9_counterexample :
    (parse_csv (fun s => if s = "G" then some 1 else none)
          (some ["Date", "Description", "Amount"])
          [[("Date", "BAD"), ("Description", "Y"), ("Amount", "5")],
            [("Date", "G"), ("Description", "Z"), ("Amount", "7")]]).toOption.map
        (fun o => (o.transactions, o.rowErrors)) =
      some ([⟨1, "Z", 7⟩], ["Row 2: Could not parse date: BAD"]) ∧
      (parse_csv (fun s => if s = "G" then some 1 else none)
          (some ["Date", "Description", "Amount"])
          [[("Date", "BAD"), ("Description", "Y"), ("Amount", "5")],
            [("Date", "G"), ("Description", "Z"), ("Amount", "7")]]).toOption.map
        (fun o => o.rowErrors.contains "row 2: Could not parse date: BAD") =
      some false :=
  ⟨by with_unfolding_all decide, by with_unfolding_all decide⟩

/-- C9 as amended: the import fails fatally (returning no partial result)
exactly when the header row is absent or some role among
date/description/amount cannot be mapped, the fatal message naming the
headers seen; every per-data-row failure is caught individually and
appended as the string "Row <n>: <message>" (capital R, n counting the
header as row 1), without preventing later rows from being parsed — the
record and error lists are pointwise accumulations over the rows; and a
row whose date, description and amount cells are all empty is skipped
silently. -/
theorem c9_parse_routing :
    (∀ (δ : Type) (pd : String → Option δ) (headers : Option (List String))
      (rows : List Row),
      (∃ e, parse_csv pd headers rows = .error e) ↔
        (headers = none ∨
          ∃ hs e, headers = some hs ∧ detect_columns hs = .error e)) ∧
    (∀ (δ : Type) (pd : String → Option δ) (rows : List Row),
      parse_csv pd none rows =
        (.error "CSV file is empty or has no headers" :
          Except String (ParseOutput δ))) ∧
    (∀ (δ : Type) (pd : String → Option δ) (hs : List String) (rows : List Row)
      (e : String), detect_columns hs = .error e →
        parse_csv pd (some hs) rows = (.error e : Except String (ParseOutput δ))) ∧
    (∀ (hs : List String) (e : String), detect_columns hs = .error e →
      e = "Could not find date column. Available columns: " ++ toString hs ∨
      e = "Could not find description column. Available columns: " ++ toString hs ∨
      e = "Could not find amount column. Available columns: " ++ toString hs) ∧
    (∀ (δ : Type) (pd : String → Option δ) (hs : List String) (rows : List Row)
      (cm : ColumnMapping), detect_columns hs = .ok cm →
        parse_csv pd (some hs) rows =
          .ok ⟨rows.enum.filterMap (rowOutcomeRec pd cm),
            rows.enum.filterMap (rowOutcomeErr pd cm), cm⟩) ∧
    (∀ (δ : Type) (pd : String → Option δ) (row : Row) (cm : ColumnMapping),
      getCell row cm.date = "" → getCell row cm.description = "" →
        amountCellOf row cm = "" → parse_row pd row cm = .ok none) := by
  have herr : ∀ (δ : Type) (pd : String → Option δ) (hs : List String)
      (rows : List Row) (e : String), detect_columns hs = .error e →
      parse_csv pd (some hs) rows = (.error e : Except String (ParseOutput δ)) := by
    intro δ pd hs rows e h
    unfold parse_csv
    dsimp only
    rw [h]
  have hok : ∀ (δ : Type) (pd : String → Option δ) (hs : List String)
      (rows : List Row) (cm : ColumnMapping), detect_columns hs = .ok cm →
      parse_csv pd (some hs) rows =
        .ok ⟨rows.enum.filterMap (rowOutcomeRec pd cm),
          rows.enum.filterMap (rowOutcomeErr pd cm), cm⟩ := by
    intro δ pd hs rows cm h
    unfold parse_csv
    dsimp only
    rw [h]
    dsimp only
    rw [csv_fold_spec pd cm rows.enum ([], [])]
    rw [List.nil_append, List.nil_append]
  refine ⟨?_, fun δ pd rows => rfl, herr, ?_, hok, ?_⟩
  · intro δ pd headers rows
    cases headers with
    | none =>
      apply iff_of_true
      · exact ⟨"CSV file is empty or has no headers", rfl⟩
      · exact Or.inl rfl
    | some hs =>
      cases hdet : detect_columns hs with
      | error e =>
        apply iff_of_true
        · exact ⟨e, herr δ pd hs rows e hdet⟩
        · exact Or.inr ⟨hs, e, rfl, hdet⟩
      | ok cm =>
        apply iff_of_false
        · intro hex
          obtain ⟨e, he⟩ := hex
          rw [hok δ pd hs rows cm hdet] at he
          exact Except.noConfusion he
        · intro hor
          rcases hor with hnone | ⟨hs2, e, heq, hdet2⟩
          · exact Option.noConfusion hnone
          · obtain rfl := Option.some.inj heq
            rw [hdet] at hdet2
            exact Except.noConfusion hdet2
  · intro hs e h
    unfold detect_columns at h
    cases hd : find_column hs DATE_COLUMNS with
    | none =>
      rw [hd] at h
      exact Or.inl (Except.error.inj h).symm
    | some dc =>
      rw [hd] at h
      dsimp only at h
      cases hdesc : find_column hs DESCRIPTION_COLUMNS with
      | none =>
        rw [hdesc] at h
        exact Or.inr (Or.inl (Except.error.inj h).symm)
      | some ds =>
        rw [hdesc] at h
        dsimp only at h
        by_cases hamt : (AMOUNT_COLUMNS.filterMap fun name =>
            match ((hs.map fun h => pyStrip (pyLower h)).findIdx?
                (fun h => h = name)) with
            | some i => hs.get? i
            | none => none).isEmpty = true
        · rw [if_pos hamt] at h
          exact Or.inr (Or.inr (Except.error.inj h).symm)
        · rw [if_neg hamt] at h
          exact Except.noConfusion h
  · intro δ pd row cm h1 h2 h3
    unfold parse_row
    rw [h1, h2, h3]
    rfl

/-- Witness for C9: a concrete bad-date row yields exactly one
"Row 2: ..." error while the following row is parsed into a record. -/
theorem c9_witness :
    parse_csv (fun s => if s = "G" then some (1 : Nat) else none)
        (some ["Date", "Description", "Amount"])
        [[("Date", "BAD"), ("Description", "Y"), ("Amount", "5")],
          [("Date", "G"), ("Description", "Z"), ("Amount", "7")]] =
      .ok ⟨([[("Date", "BAD"), ("Description", "Y"), ("Amount", "5")],
            [("Date", "G"), ("Description", "Z"), ("Amount", "7")]] : List Row).enum.filterMap
          (rowOutcomeRec (fun s => if s = "G" then some 1 else none)
            ⟨"Date", "Description", some "Amount", none⟩),
        ([[("Date", "BAD"), ("Description", "Y"), ("Amount", "5")],
            [("Date", "G"), ("Description", "Z"), ("Amount", "7")]] : List Row).enum.filterMap
          (rowOutcomeErr (fun s => if s = "G" then some 1 else none)
            ⟨"Date", "Description", some "Amount", none⟩),
        ⟨"Date", "Description", some "Amount", none⟩⟩ :=
  c9_parse_routing.2.2.2.2.1 Nat (fun s => if s = "G" then some 1 else none)
    ["Date", "Description", "Amount"]
    [[("Date", "BAD"), ("Description", "Y"), ("Amount", "5")],
      [("Date", "G"), ("Description", "Z"), ("Amount", "7")]]
    ⟨"Date", "Description", some "Amount", none⟩ (by rfl)
